/-
Verification of the RFM customer-segmentation core (src/rfm.py) against its
natural-language specification.

Shallow embedding notes.
* Python floats are modelled by `ℚ` (exact arithmetic); every claim settled
  here is about the algorithmic structure of the code (formulas, argmax,
  grouping, ranking, rounding), not about float rounding.
* `sklearn.preprocessing.StandardScaler` (z-scores, which involve a square
  root of the variance) and the `sklearn.cluster.KMeans` optimiser (an
  iterative floating-point procedure driven by a PRNG) are external library
  routines; their numeric outputs — the standardized matrix `Xs` and the
  label vector — are taken as parameters of the embedding.  The *input
  validation* that `KMeans.fit` performs (`n_samples >= n_clusters`,
  otherwise `ValueError("n_samples=... should be >= n_clusters=...")`) is
  modelled explicitly, since the repository relies on it.
* Python raises `ZeroDivisionError` on float division by zero (including
  `0.0 / 0.0`), and `IndexError` when indexing `wcss[0]` on an empty list;
  fallible paths are therefore modelled with `Except String`.
-/
import Mathlib

namespace RFMSeg

/-! ## np.argmax

`np.argmax` over a 1-d array returns the index of the maximum value; when the
maximum appears several times it returns the *first* such index. -/

/-- Model of `np.argmax` on a list of rationals (first maximum wins;
`argmax [] = 0`, the empty case is never reached by the caller). -/
def argmax : List ℚ → ℕ
  | [] => 0
  | [_] => 0
  | x :: y :: ys =>
    if x < (y :: ys).getD (argmax (y :: ys)) 0 then argmax (y :: ys) + 1 else 0

theorem argmax_lt_length : ∀ (l : List ℚ), l ≠ [] → argmax l < l.length
  | [], h => absurd rfl h
  | [_], _ => by simp [argmax]
  | x :: y :: ys, _ => by
    have ih := argmax_lt_length (y :: ys) (by simp)
    simp only [argmax, List.length_cons]
    by_cases h : x < (y :: ys).getD (argmax (y :: ys)) 0
    · rw [if_pos h]
      exact Nat.succ_lt_succ (by simpa using ih)
    · rw [if_neg h]
      exact Nat.succ_pos _

theorem getD_le_argmax :
    ∀ (l : List ℚ) (j : ℕ), j < l.length → l.getD j 0 ≤ l.getD (argmax l) 0
  | [], j, h => absurd h (by simp)
  | [x], j, h => by
    have hj : j = 0 := Nat.lt_one_iff.mp (by simpa using h)
    subst hj
    simp [argmax]
  | x :: y :: ys, j, h => by
    have ih := getD_le_argmax (y :: ys)
    simp only [argmax]
    by_cases hx : x < (y :: ys).getD (argmax (y :: ys)) 0
    · rw [if_pos hx]
      cases j with
      | zero => simpa using hx.le
      | succ j' =>
        simp only [List.getD_cons_succ]
        exact ih j' (by simpa using h)
    · rw [if_neg hx]
      cases j with
      | zero => simp
      | succ j' =>
        simp only [List.getD_cons_succ, List.getD_cons_zero]
        exact le_trans (ih j' (by simpa using h)) (le_of_not_lt hx)

theorem getD_lt_of_lt_argmax :
    ∀ (l : List ℚ) (j : ℕ), j < argmax l → l.getD j 0 < l.getD (argmax l) 0
  | [], j, h => absurd h (by simp [argmax])
  | [x], j, h => absurd h (by simp [argmax])
  | x :: y :: ys, j, h => by
    have ih := getD_lt_of_lt_argmax (y :: ys)
    simp only [argmax] at h ⊢
    by_cases hx : x < (y :: ys).getD (argmax (y :: ys)) 0
    · rw [if_pos hx] at h ⊢
      cases j with
      | zero => simpa using hx
      | succ j' =>
        simp only [List.getD_cons_succ]
        exact ih j' (Nat.lt_of_succ_lt_succ h)
    · rw [if_neg hx] at h
      exact absurd h (Nat.not_lt_zero _)

/-! ## Knee Selector — `get_numero_otimo_clusters` (src/rfm.py lines 75–90)

```python
def get_numero_otimo_clusters(wcss, k_min=2, k_max=10) -> int:
    x1, y1 = k_min, wcss[0]
    x2, y2 = k_max, wcss[-1]
    distancias = []
    for i, y0 in enumerate(wcss):
        x0 = k_min + i
        numerador = abs((y2 - y1) * x0 - (x2 - x1) * y0 + x2 * y1 - y2 * x1)
        denominador = math.sqrt((y2 - y1) ** 2 + (x2 - x1) ** 2)
        distancias.append(numerador / denominador)
    return (k_min + int(np.argmax(distancias)))
```

The per-point numerator and the (squared) denominator are rational; the per
point distance is `numerador / sqrt(denomSq)`.  Since `sqrt(denomSq)` is one
and the same positive constant for all `i` (when `denomSq ≠ 0`) and
`x ↦ x / c` is strictly monotone for `c > 0`, `np.argmax` over the distances
coincides with `argmax` over the numerators — the embedding therefore
argmaxes the (exact, rational) numerators, and the theorem for claim C1
re-establishes the correspondence with the real-valued distance formula of
the spec, square root included.

Failure paths of the Python code, preserved by the embedding:
* `wcss = []` → `wcss[0]` raises `IndexError`;
* `denominador == 0.0` (possible only when `k_min == k_max` and the chord is
  degenerate) → the first `numerador / denominador` raises
  `ZeroDivisionError` (Python raises it for float division by zero, also for
  `0.0 / 0.0`). -/

/-- The numerator `abs((y2-y1)*x0 - (x2-x1)*y0 + x2*y1 - y2*x1)` computed by
the loop body for the point with index `i`, where `x0 = k_min + i` and
`y0 = wcss[i]`. -/
def knee_numerador (wcss : List ℚ) (kMin kMax : ℤ) (i : ℕ) : ℚ :=
  |(wcss.getLastD 0 - wcss.headI) * ((kMin : ℚ) + (i : ℚ)) -
      ((kMax : ℚ) - (kMin : ℚ)) * wcss.getD i 0 +
      (kMax : ℚ) * wcss.headI - wcss.getLastD 0 * (kMin : ℚ)|

/-- The square of the constant denominator `math.sqrt((y2-y1)**2 + (x2-x1)**2)`. -/
def knee_denomSq (wcss : List ℚ) (kMin kMax : ℤ) : ℚ :=
  (wcss.getLastD 0 - wcss.headI) ^ 2 + ((kMax : ℚ) - (kMin : ℚ)) ^ 2

/-- The list `distancias`, rescaled by the constant positive factor
`sqrt(denomSq)` (see the section comment): one entry per element of `wcss`. -/
def knee_distancias (wcss : List ℚ) (kMin kMax : ℤ) : List ℚ :=
  (List.range wcss.length).map (knee_numerador wcss kMin kMax)

/-- Shallow embedding of `get_numero_otimo_clusters` (src/rfm.py 75–90). -/
def get_numero_otimo_clusters (wcss : List ℚ) (kMin kMax : ℤ) : Except String ℤ :=
  if wcss.isEmpty then .error "IndexError"
  else if knee_denomSq wcss kMin kMax = 0 then .error "ZeroDivisionError"
  else .ok (kMin + (argmax (knee_distancias wcss kMin kMax) : ℤ))

/-- The point-to-chord distance exactly as the spec words it (refinement
target, stated over ℝ with the genuine square root):
`distance = |(y2-y1)·x0 - (x2-x1)·y0 + x2·y1 - y2·x1| / sqrt((y2-y1)² + (x2-x1)²)`
with `(x1,y1) = (k_min, wcss[0])`, `(x2,y2) = (k_max, wcss[last])`,
`(x0,y0) = (k_min+i, wcss[i])`. -/
noncomputable def spec_knee_distance (wcss : List ℚ) (kMin kMax : ℤ) (i : ℕ) : ℝ :=
  let x1 : ℝ := (kMin : ℝ)
  let y1 : ℝ := (wcss.headI : ℝ)
  let x2 : ℝ := (kMax : ℝ)
  let y2 : ℝ := (wcss.getLastD 0 : ℝ)
  let x0 : ℝ := (kMin : ℝ) + (i : ℝ)
  let y0 : ℝ := (wcss.getD i 0 : ℝ)
  |(y2 - y1) * x0 - (x2 - x1) * y0 + x2 * y1 - y2 * x1| /
    Real.sqrt ((y2 - y1) ^ 2 + (x2 - x1) ^ 2)

theorem knee_distancias_length (wcss : List ℚ) (kMin kMax : ℤ) :
    (knee_distancias wcss kMin kMax).length = wcss.length := by
  simp [knee_distancias]

theorem knee_distancias_getD (wcss : List ℚ) (kMin kMax : ℤ) (j : ℕ)
    (h : j < wcss.length) :
    (knee_distancias wcss kMin kMax).getD j 0 = knee_numerador wcss kMin kMax j := by
  rw [List.getD_eq_getElem _ _ (by simpa [knee_distancias_length] using h)]
  simp [knee_distancias]

theorem knee_denomSq_pos (wcss : List ℚ) {kMin kMax : ℤ} (hk : kMin < kMax) :
    0 < knee_denomSq wcss kMin kMax := by
  have h2 : (0 : ℚ) < ((kMax : ℚ) - (kMin : ℚ)) ^ 2 := by
    have : ((kMax : ℚ) - (kMin : ℚ)) ≠ 0 := by
      have : (kMin : ℚ) < (kMax : ℚ) := by exact_mod_cast hk
      linarith
    positivity
  have h1 : (0 : ℚ) ≤ (wcss.getLastD 0 - wcss.headI) ^ 2 := sq_nonneg _
  unfold knee_denomSq
  linarith

/-- Bridge between the spec's real-valued distance and the rational
numerator computed by the embedding. -/
theorem spec_knee_distance_eq (wcss : List ℚ) (kMin kMax : ℤ) (i : ℕ) :
    spec_knee_distance wcss kMin kMax i =
      ((knee_numerador wcss kMin kMax i : ℚ) : ℝ) /
        Real.sqrt ((knee_denomSq wcss kMin kMax : ℚ) : ℝ) := by
  unfold spec_knee_distance knee_numerador knee_denomSq
  push_cast
  ring_nf

theorem knee_returns_argmax (wcss : List ℚ) (kMin kMax : ℤ)
    (hne : wcss ≠ []) (hk : kMin < kMax) :
    get_numero_otimo_clusters wcss kMin kMax =
      .ok (kMin + (argmax (knee_distancias wcss kMin kMax) : ℤ)) := by
  unfold get_numero_otimo_clusters
  rw [if_neg (by simpa [List.isEmpty_iff] using hne),
    if_neg (knee_denomSq_pos wcss hk).ne']

/-- C1: the Knee Selector computes, for each index `i`, the perpendicular
distance of `(k_min+i, wcss[i])` to the chord from `(k_min, wcss[0])` to
`(k_max, wcss[last])` by the formula
`|(y2-y1)·x0 - (x2-x1)·y0 + x2·y1 - y2·x1| / sqrt((y2-y1)² + (x2-x1)²)`,
and returns the `k` of maximum distance, ties to the lowest `k` (first
occurrence in ascending-`k` order). -/
theorem knee_selector_matches_spec_formula (wcss : List ℚ) (kMin kMax : ℤ)
    (hlen : (wcss.length : ℤ) = kMax - kMin + 1) (hk : kMin < kMax) :
    ∃ i : ℕ, i < wcss.length ∧
      get_numero_otimo_clusters wcss kMin kMax = .ok (kMin + (i : ℤ)) ∧
      (∀ j, j < wcss.length →
        spec_knee_distance wcss kMin kMax j ≤ spec_knee_distance wcss kMin kMax i) ∧
      (∀ j, j < i →
        spec_knee_distance wcss kMin kMax j < spec_knee_distance wcss kMin kMax i) := by
  have hne : wcss ≠ [] := by
    intro h
    rw [h] at hlen
    simp only [List.length_nil, Nat.cast_zero] at hlen
    omega
  have hpos : 0 < knee_denomSq wcss kMin kMax := knee_denomSq_pos wcss hk
  have hsq : 0 < Real.sqrt ((knee_denomSq wcss kMin kMax : ℚ) : ℝ) :=
    Real.sqrt_pos.mpr (by exact_mod_cast hpos)
  have hDne : knee_distancias wcss kMin kMax ≠ [] := by
    intro h
    have := knee_distancias_length wcss kMin kMax
    rw [h] at this
    exact hne (List.length_eq_zero.mp this.symm)
  have hi : argmax (knee_distancias wcss kMin kMax) < wcss.length := by
    have := argmax_lt_length _ hDne
    rwa [knee_distancias_length] at this
  refine ⟨argmax (knee_distancias wcss kMin kMax), hi,
    knee_returns_argmax wcss kMin kMax hne hk, ?_, ?_⟩
  · intro j hj
    rw [spec_knee_distance_eq, spec_knee_distance_eq, div_le_div_iff_of_pos_right hsq]
    have h := getD_le_argmax (knee_distancias wcss kMin kMax) j
      (by rwa [knee_distancias_length])
    rw [knee_distancias_getD wcss kMin kMax j hj,
      knee_distancias_getD wcss kMin kMax _ hi] at h
    exact_mod_cast h
  · intro j hj
    rw [spec_knee_distance_eq, spec_knee_distance_eq, div_lt_div_iff_of_pos_right hsq]
    have h := getD_lt_of_lt_argmax (knee_distancias wcss kMin kMax) j hj
    rw [knee_distancias_getD wcss kMin kMax j (lt_trans hj hi),
      knee_distancias_getD wcss kMin kMax _ hi] at h
    exact_mod_cast h

/-- Witness for C1 at the concrete input `wcss = [10, 4, 2, 1]`,
`k_min = 2`, `k_max = 5`. -/
theorem knee_selector_matches_spec_formula_witness :
    ((([10, 4, 2, 1] : List ℚ).length : ℤ) = 5 - 2 + 1) ∧ ((2 : ℤ) < 5) ∧
      (∃ i : ℕ, i < ([10, 4, 2, 1] : List ℚ).length ∧
        get_numero_otimo_clusters [10, 4, 2, 1] 2 5 = .ok (2 + (i : ℤ)) ∧
        (∀ j, j < ([10, 4, 2, 1] : List ℚ).length →
          spec_knee_distance [10, 4, 2, 1] 2 5 j ≤ spec_knee_distance [10, 4, 2, 1] 2 5 i) ∧
        (∀ j, j < i →
          spec_knee_distance [10, 4, 2, 1] 2 5 j < spec_knee_distance [10, 4, 2, 1] 2 5 i)) :=
  ⟨by norm_num, by norm_num,
    knee_selector_matches_spec_formula [10, 4, 2, 1] 2 5 (by norm_num) (by norm_num)⟩

/-- C10: on a well-sized WCSS sequence with `k_min < k_max`, the returned
`k` lies in the closed range `[k_min, k_max]`. -/
theorem knee_selector_result_in_range (wcss : List ℚ) (kMin kMax : ℤ)
    (hlen : (wcss.length : ℤ) = kMax - kMin + 1) (hk : kMin < kMax) :
    ∃ k : ℤ, get_numero_otimo_clusters wcss kMin kMax = .ok k ∧
      kMin ≤ k ∧ k ≤ kMax := by
  have hne : wcss ≠ [] := by
    intro h
    rw [h] at hlen
    simp only [List.length_nil, Nat.cast_zero] at hlen
    omega
  have hDne : knee_distancias wcss kMin kMax ≠ [] := by
    intro h
    have := knee_distancias_length wcss kMin kMax
    rw [h] at this
    exact hne (List.length_eq_zero.mp this.symm)
  have hi : argmax (knee_distancias wcss kMin kMax) < wcss.length := by
    have := argmax_lt_length _ hDne
    rwa [knee_distancias_length] at this
  refine ⟨kMin + (argmax (knee_distancias wcss kMin kMax) : ℤ),
    knee_returns_argmax wcss kMin kMax hne hk, by omega, ?_⟩
  have : ((argmax (knee_distancias wcss kMin kMax) : ℕ) : ℤ) < (wcss.length : ℤ) := by
    exact_mod_cast hi
  omega

/-- Witness for C10 at `wcss = [9, 3, 2, 1, 1/2]`, `k_min = 2`, `k_max = 6`. -/
theorem knee_selector_result_in_range_witness :
    ((([9, 3, 2, 1, 1/2] : List ℚ).length : ℤ) = 6 - 2 + 1) ∧ ((2 : ℤ) < 6) ∧
      (∃ k : ℤ, get_numero_otimo_clusters [9, 3, 2, 1, 1/2] 2 6 = .ok k ∧
        2 ≤ k ∧ k ≤ 6) :=
  ⟨by norm_num, by norm_num,
    knee_selector_result_in_range [9, 3, 2, 1, 1/2] 2 6 (by norm_num) (by norm_num)⟩

/-- Counterexample to C2: at `k_min = k_max = 5` with the single WCSS value
`100`, `get_numero_otimo_clusters` does not return `k_min = 5`; the
denominator of the degenerate chord is `0.0` and the division raises
`ZeroDivisionError` (modelled as `.error "ZeroDivisionError"`). -/
theorem knee_degenerate_raises :
    get_numero_otimo_clusters [100] 5 5 = .error "ZeroDivisionError" ∧
      ∀ k : ℤ, get_numero_otimo_clusters [100] 5 5 ≠ .ok k := by
  constructor
  · simp only [get_numero_otimo_clusters, knee_denomSq]
    norm_num
  · intro k h
    rw [show get_numero_otimo_clusters [100] 5 5 = .error "ZeroDivisionError" by
      simp only [get_numero_otimo_clusters, knee_denomSq]; norm_num] at h
    exact Except.noConfusion h

/-- C2 amended: when `k_min = k_max` and the WCSS sequence has a single
value, the Knee Selector is *not* guarded — the degenerate chord makes the
denominator zero and the call raises `ZeroDivisionError` instead of
returning `k_min`. -/
theorem knee_degenerate_raises_zero_division (w : ℚ) (k : ℤ) :
    get_numero_otimo_clusters [w] k k = .error "ZeroDivisionError" := by
  have h0 : knee_denomSq [w] k k = 0 := by
    unfold knee_denomSq
    simp
  unfold get_numero_otimo_clusters
  rw [if_neg (by simp), if_pos h0]

/-- Counterexample to C8: a WCSS sequence of length 2 for the range
`[2, 10]` (expected length 9) is accepted without any error: the call
returns `.ok 3` instead of failing loudly. -/
theorem knee_accepts_mismatched_length :
    (([10, 5] : List ℚ).length : ℤ) ≠ 10 - 2 + 1 ∧
      get_numero_otimo_clusters [10, 5] 2 10 = .ok 3 := by
  constructor
  · norm_num
  · simp only [get_numero_otimo_clusters, knee_denomSq, knee_distancias, knee_numerador]
    norm_num [argmax, List.range_succ, knee_numerador, abs]

/-- C8 amended: the Knee Selector performs no length validation at all —
for every nonempty WCSS sequence with `k_min < k_max`, even one whose
length differs from `k_max - k_min + 1`, it silently returns some `k`
and never raises. -/
theorem knee_no_length_validation (wcss : List ℚ) (kMin kMax : ℤ)
    (hne : wcss ≠ []) (hk : kMin < kMax)
    (hmis : (wcss.length : ℤ) ≠ kMax - kMin + 1) :
    ∃ k : ℤ, get_numero_otimo_clusters wcss kMin kMax = .ok k :=
  ⟨kMin + (argmax (knee_distancias wcss kMin kMax) : ℤ),
    knee_returns_argmax wcss kMin kMax hne hk⟩

/-- Witness for the amended C8 at `wcss = [10, 5]`, `k_min = 2`, `k_max = 10`. -/
theorem knee_no_length_validation_witness :
    (([10, 5] : List ℚ) ≠ []) ∧ ((2 : ℤ) < 10) ∧
      ((([10, 5] : List ℚ).length : ℤ) ≠ 10 - 2 + 1) ∧
      (∃ k : ℤ, get_numero_otimo_clusters [10, 5] 2 10 = .ok k) :=
  ⟨by simp, by norm_num, by norm_num,
    knee_no_length_validation [10, 5] 2 10 (by simp) (by norm_num) (by norm_num)⟩

/-! ## Joint Clusterer — `cluster_rfm_joint` (src/rfm.py lines 93–151)

The function builds features via `build_rfm_features` (log1p + z-scores:
external irrational numerics, so the standardized matrix `Xs` is a
parameter here), runs `KMeans(...).fit_predict(Xs)` (external optimiser,
label vector a parameter; the `n_samples >= n_clusters` validation of
`fit` is modelled), sets `ScoreComposto = Xs.sum(axis=1)`, aggregates a
per-cluster profile with pandas `groupby("ClusterId")` (keys sorted
ascending), sorts it ascending by `ScoreComposto_medio`, assigns
`RankQualidade = 0..k-1` in that order, computes
`PctBase = (Clientes/total).round(4)`, merges the rank back onto the
per-customer table, and finally rounds every `*_media`/`*_mediana`/
`ScoreComposto*` profile column to 2 decimals for display.

pandas `sort_values` uses an unstable quicksort; the embedding uses a
(stable) insertion sort.  The two may order *tied* mean scores
differently; no theorem below depends on the order among ties. -/

/-- One row of the RFM table (`Cliente`, `Recencia`, `Frequencia`,
`Receita`); the customer identifier is an opaque key, modelled as `ℤ`. -/
structure RfmRow where
  cliente : ℤ
  recencia : ℚ
  frequencia : ℚ
  receita : ℚ
deriving Inhabited

/-- A per-customer row after cluster assignment and scoring (the state of
`enriched` at src/rfm.py line 111, restricted to the fields later used). -/
structure AssignedRow where
  cliente : ℤ
  recencia : ℚ
  frequencia : ℚ
  receita : ℚ
  clusterId : ℤ
  scoreComposto : ℚ
deriving Inhabited

/-- One row of `prof` straight after the `groupby(...).agg(...)` of
src/rfm.py lines 114–127 (before rank and percentage columns are added). -/
structure AggRow where
  clusterId : ℤ
  clientes : ℕ
  recencia_media : ℚ
  recencia_mediana : ℚ
  frequencia_media : ℚ
  frequencia_mediana : ℚ
  receita_media : ℚ
  receita_mediana : ℚ
  scoreComposto_medio : ℚ
deriving Inhabited

/-- One row of the final cluster profile (src/rfm.py lines 129–133):
`AggRow` plus `RankQualidade` and `PctBase`. -/
structure ProfileRow where
  clusterId : ℤ
  clientes : ℕ
  recencia_media : ℚ
  recencia_mediana : ℚ
  frequencia_media : ℚ
  frequencia_mediana : ℚ
  receita_media : ℚ
  receita_mediana : ℚ
  scoreComposto_medio : ℚ
  rankQualidade : ℕ
  pctBase : ℚ
deriving Inhabited

/-- One row of the per-customer output table, with exactly the columns
selected at src/rfm.py lines 142–143. -/
structure ClusteredRow where
  cliente : ℤ
  recencia : ℚ
  frequencia : ℚ
  receita : ℚ
  clusterId : ℤ
  rankQualidade : ℕ
  scoreComposto : ℚ
deriving Inhabited

/-- numpy/pandas `.round` rounds half to even (banker's rounding). -/
def roundHalfEven (x : ℚ) : ℤ :=
  if Int.fract x < 1 / 2 then ⌊x⌋
  else if 1 / 2 < Int.fract x then ⌊x⌋ + 1
  else if 2 ∣ ⌊x⌋ then ⌊x⌋ else ⌊x⌋ + 1

/-- pandas `Series.round(d)`: round to `d` decimal places, half to even. -/
def roundTo (d : ℕ) (x : ℚ) : ℚ :=
  (roundHalfEven (x * 10 ^ d) : ℚ) / 10 ^ d

/-- pandas `mean` aggregation of a group of values. -/
def qmean (l : List ℚ) : ℚ := l.sum / (l.length : ℚ)

/-- pandas `median` aggregation: middle element of the sorted values for odd
length, average of the two middle elements for even length. -/
def qmedian (l : List ℚ) : ℚ :=
  let s := List.insertionSort (· ≤ ·) l
  if s.length % 2 = 1 then s.getD (s.length / 2) 0
  else (s.getD (s.length / 2 - 1) 0 + s.getD (s.length / 2) 0) / 2

/-- `sklearn` label assignment `km.fit_predict(Xs)` (src/rfm.py 106–107):
the label vector itself comes from the external iterative optimiser and is
passed in as `labels`; the input validation of `KMeans.fit` — it raises
`ValueError("n_samples=%d should be >= n_clusters=%d")` when there are
fewer samples than requested clusters — is modelled explicitly. -/
def kmeans_fit_predict (nClusters : ℕ) (nSamples : ℕ) (labels : List ℤ) :
    Except String (List ℤ) :=
  if nSamples < nClusters then .error "n_samples should be >= n_clusters"
  else .ok labels

/-- `enriched["ClusterId"] = cluster_id; enriched["ScoreComposto"] = Xs.sum(axis=1)`
(src/rfm.py lines 108–111): pair each RFM row with its label and its
standardized feature row; the composite score is the row sum of `Xs`. -/
def mk_assigned (rfm : List RfmRow) (cids : List ℤ) (Xs : List (ℚ × ℚ × ℚ)) :
    List AssignedRow :=
  (rfm.zip (cids.zip Xs)).map fun p =>
    { cliente := p.1.cliente
      recencia := p.1.recencia
      frequencia := p.1.frequencia
      receita := p.1.receita
      clusterId := p.2.1
      scoreComposto := p.2.2.1 + p.2.2.2.1 + p.2.2.2.2 }

/-- The group keys of `enriched.groupby("ClusterId")`: the distinct
`ClusterId` values, in ascending order (pandas sorts group keys). -/
def groupKeys (rows : List AssignedRow) : List ℤ :=
  List.insertionSort (· ≤ ·) (rows.map (fun r => r.clusterId)).dedup

/-- The rows of one `groupby` group. -/
def clusterGroup (rows : List AssignedRow) (k : ℤ) : List AssignedRow :=
  rows.filter (fun r => r.clusterId == k)

/-- The `agg(...)` of src/rfm.py lines 116–125 for one group. -/
def agg_cluster (rows : List AssignedRow) (k : ℤ) : AggRow :=
  { clusterId := k
    clientes := (clusterGroup rows k).length
    recencia_media := qmean ((clusterGroup rows k).map (fun r => r.recencia))
    recencia_mediana := qmedian ((clusterGroup rows k).map (fun r => r.recencia))
    frequencia_media := qmean ((clusterGroup rows k).map (fun r => r.frequencia))
    frequencia_mediana := qmedian ((clusterGroup rows k).map (fun r => r.frequencia))
    receita_media := qmean ((clusterGroup rows k).map (fun r => r.receita))
    receita_mediana := qmedian ((clusterGroup rows k).map (fun r => r.receita))
    scoreComposto_medio := qmean ((clusterGroup rows k).map (fun r => r.scoreComposto)) }

/-- `enriched.groupby("ClusterId").agg(...).reset_index()` (lines 114–127). -/
def cluster_profile_agg (rows : List AssignedRow) : List AggRow :=
  (groupKeys rows).map (agg_cluster rows)

/-- The sort key of `prof.sort_values("ScoreComposto_medio", ascending=True)`. -/
def scoreLe (a b : AggRow) : Prop :=
  a.scoreComposto_medio ≤ b.scoreComposto_medio

instance : DecidableRel scoreLe := fun a b =>
  inferInstanceAs (Decidable (a.scoreComposto_medio ≤ b.scoreComposto_medio))

instance : IsTotal AggRow scoreLe := ⟨fun _ _ => le_total _ _⟩

instance : IsTrans AggRow scoreLe := ⟨fun _ _ _ h h' => le_trans h h'⟩

/-- `prof.sort_values("ScoreComposto_medio", ascending=True)` (line 130). -/
def sort_by_score (l : List AggRow) : List AggRow :=
  List.insertionSort scoreLe l

/-- One profile row after `RankQualidade` and `PctBase` are added
(lines 131–133): `rank` is the row's position after the sort,
`PctBase = (Clientes / total).round(4)`. -/
def mkProfileRow (a : AggRow) (rank : ℕ) (total : ℚ) : ProfileRow :=
  { clusterId := a.clusterId
    clientes := a.clientes
    recencia_media := a.recencia_media
    recencia_mediana := a.recencia_mediana
    frequencia_media := a.frequencia_media
    frequencia_mediana := a.frequencia_mediana
    receita_media := a.receita_media
    receita_mediana := a.receita_mediana
    scoreComposto_medio := a.scoreComposto_medio
    rankQualidade := rank
    pctBase := roundTo 4 ((a.clientes : ℚ) / total) }

def add_rank_pct_aux (total : ℚ) : ℕ → List AggRow → List ProfileRow
  | _, [] => []
  | i, a :: as => mkProfileRow a i total :: add_rank_pct_aux total (i + 1) as

/-- `prof["RankQualidade"] = np.arange(len(prof))` and
`prof["PctBase"] = (prof["Clientes"] / prof["Clientes"].sum()).round(4)`
(src/rfm.py lines 131–133). -/
def add_rank_pct (l : List AggRow) : List ProfileRow :=
  add_rank_pct_aux (((l.map (fun a => a.clientes)).sum : ℕ) : ℚ) 0 l

/-- The full cluster profile `prof` (lines 114–133). -/
def cluster_profile (rows : List AssignedRow) : List ProfileRow :=
  add_rank_pct (sort_by_score (cluster_profile_agg rows))

/-- The display rounding of lines 146–149: every column ending in `_media`
or `_mediana`, and every column containing `ScoreComposto`, is rounded to
2 decimal places; `ClusterId`, `Clientes`, `RankQualidade` and `PctBase`
are left untouched. -/
def profile_display (p : ProfileRow) : ProfileRow :=
  { p with
    recencia_media := roundTo 2 p.recencia_media
    recencia_mediana := roundTo 2 p.recencia_mediana
    frequencia_media := roundTo 2 p.frequencia_media
    frequencia_mediana := roundTo 2 p.frequencia_mediana
    receita_media := roundTo 2 p.receita_media
    receita_mediana := roundTo 2 p.receita_mediana
    scoreComposto_medio := roundTo 2 p.scoreComposto_medio }

/-- The `enriched.merge(prof[["ClusterId", "RankQualidade"]], on="ClusterId",
how="left")` lookup (line 136): every `ClusterId` of `enriched` occurs in
`prof` by construction, so the left join is total. -/
def rank_of (prof : List ProfileRow) (cid : ℤ) : ℕ :=
  ((prof.find? (fun p => p.clusterId == cid)).map (fun p => p.rankQualidade)).getD 0

/-- Shallow embedding of `cluster_rfm_joint` (src/rfm.py lines 93–151).
`Xs` is the standardized feature matrix produced by `build_rfm_features`
(one row per RFM row) and `labels` the KMeans label vector — both outputs
of external numeric routines, see the section comment. -/
def cluster_rfm_joint (rfm : List RfmRow) (Xs : List (ℚ × ℚ × ℚ))
    (labels : List ℤ) (nClusters : ℕ) :
    Except String (List ClusteredRow × List ProfileRow) :=
  match kmeans_fit_predict nClusters Xs.length labels with
  | .error e => .error e
  | .ok cids =>
    let assigned := mk_assigned rfm cids Xs
    let prof := cluster_profile assigned
    let out := assigned.map fun r =>
      { cliente := r.cliente
        recencia := r.recencia
        frequencia := r.frequencia
        receita := r.receita
        clusterId := r.clusterId
        rankQualidade := rank_of prof r.clusterId
        scoreComposto := r.scoreComposto : ClusteredRow }
    .ok (out, prof.map profile_display)

/-! ### Properties of half-to-even rounding -/

theorem roundHalfEven_bounds (x : ℚ) :
    ⌊x⌋ ≤ roundHalfEven x ∧ roundHalfEven x ≤ ⌊x⌋ + 1 := by
  unfold roundHalfEven
  split_ifs <;> omega

theorem abs_roundHalfEven_sub (x : ℚ) : |(roundHalfEven x : ℚ) - x| ≤ 1 / 2 := by
  have h0 : 0 ≤ Int.fract x := Int.fract_nonneg x
  have h1 : Int.fract x < 1 := Int.fract_lt_one x
  have hadd : (⌊x⌋ : ℚ) + Int.fract x = x := Int.floor_add_fract x
  unfold roundHalfEven
  split_ifs with ha hb hc <;> (rw [abs_le]; push_cast; constructor <;> linarith)

theorem roundHalfEven_mono {x y : ℚ} (h : x ≤ y) :
    roundHalfEven x ≤ roundHalfEven y := by
  have hf : ⌊x⌋ ≤ ⌊y⌋ := Int.floor_le_floor h
  by_cases hfe : ⌊x⌋ = ⌊y⌋
  · have hfr : Int.fract x ≤ Int.fract y := by
      have hx : (⌊x⌋ : ℚ) + Int.fract x = x := Int.floor_add_fract x
      have hy : (⌊y⌋ : ℚ) + Int.fract y = y := Int.floor_add_fract y
      have : ((⌊x⌋ : ℤ) : ℚ) = ((⌊y⌋ : ℤ) : ℚ) := by exact_mod_cast hfe
      linarith
    unfold roundHalfEven
    rw [← hfe]
    split_ifs <;> first | omega | (exfalso; linarith)
  · have hlt : ⌊x⌋ + 1 ≤ ⌊y⌋ := by omega
    have bx := roundHalfEven_bounds x
    have by' := roundHalfEven_bounds y
    omega

theorem roundTo_mono (d : ℕ) {x y : ℚ} (h : x ≤ y) : roundTo d x ≤ roundTo d y := by
  unfold roundTo
  have hp : (0 : ℚ) < 10 ^ d := by positivity
  refine (div_le_div_iff_of_pos_right hp).mpr ?_
  exact_mod_cast roundHalfEven_mono (mul_le_mul_of_nonneg_right h hp.le)

theorem abs_roundTo_sub (d : ℕ) (x : ℚ) :
    |roundTo d x - x| ≤ 1 / (2 * 10 ^ d) := by
  unfold roundTo
  have hp : (0 : ℚ) < 10 ^ d := by positivity
  have h := abs_roundHalfEven_sub (x * 10 ^ d)
  have key : (roundHalfEven (x * 10 ^ d) : ℚ) / 10 ^ d - x =
      ((roundHalfEven (x * 10 ^ d) : ℚ) - x * 10 ^ d) / 10 ^ d := by
    field_simp
    ring
  rw [key, abs_div, abs_of_pos hp]
  rw [div_le_div_iff₀ hp (by positivity)]
  calc |(roundHalfEven (x * 10 ^ d) : ℚ) - x * 10 ^ d| * (2 * 10 ^ d)
      ≤ (1 / 2) * (2 * 10 ^ d) := by
        exact mul_le_mul_of_nonneg_right h (by positivity)
    _ = 1 * 10 ^ d := by ring

/-! ### List summation helpers -/

theorem list_sum_map_sub {α : Type} (f g : α → ℚ) (l : List α) :
    (l.map (fun a => f a - g a)).sum = (l.map f).sum - (l.map g).sum := by
  induction l with
  | nil => simp
  | cons a as ih => simp [ih]; ring

theorem list_sum_map_div {α : Type} (f : α → ℚ) (c : ℚ) (l : List α) :
    (l.map (fun a => f a / c)).sum = (l.map f).sum / c := by
  induction l with
  | nil => simp
  | cons a as ih => simp [ih]; ring

theorem list_abs_sum_le {α : Type} (f : α → ℚ) (b : ℚ) :
    ∀ (l : List α), (∀ a ∈ l, |f a| ≤ b) →
      |(l.map f).sum| ≤ (l.length : ℚ) * b
  | [], _ => by simp
  | a :: as, h => by
    have ih := list_abs_sum_le f b as (fun x hx => h x (List.mem_cons_of_mem a hx))
    have ha := h a (List.mem_cons_self a as)
    simp only [List.map_cons, List.sum_cons, List.length_cons]
    calc |f a + (as.map f).sum| ≤ |f a| + |(as.map f).sum| := abs_add _ _
      _ ≤ b + (as.length : ℚ) * b := add_le_add ha ih
      _ = ((as.length : ℚ) + 1) * b := by ring
      _ = (((as.length : ℕ) + 1 : ℕ) : ℚ) * b := by push_cast; ring

/-! ### Structural lemmas about the profile construction -/

theorem add_rank_pct_aux_length (total : ℚ) :
    ∀ (s : ℕ) (l : List AggRow), (add_rank_pct_aux total s l).length = l.length
  | _, [] => rfl
  | s, _ :: as => by
    simp [add_rank_pct_aux, add_rank_pct_aux_length total (s + 1) as]

theorem add_rank_pct_aux_getD (total : ℚ) :
    ∀ (s j : ℕ) (l : List AggRow), j < l.length →
      (add_rank_pct_aux total s l).getD j default =
        mkProfileRow (l.getD j default) (s + j) total
  | _, _, [], h => absurd h (by simp)
  | s, 0, a :: as, _ => by simp [add_rank_pct_aux]
  | s, j + 1, a :: as, h => by
    simp only [add_rank_pct_aux, List.getD_cons_succ]
    rw [add_rank_pct_aux_getD total (s + 1) j as (by simpa using h)]
    congr 1
    omega

theorem add_rank_pct_aux_map_pct (total : ℚ) :
    ∀ (s : ℕ) (l : List AggRow),
      (add_rank_pct_aux total s l).map (fun p => p.pctBase) =
        l.map (fun a => roundTo 4 ((a.clientes : ℚ) / total))
  | _, [] => rfl
  | s, a :: as => by
    simp [add_rank_pct_aux, mkProfileRow, add_rank_pct_aux_map_pct total (s + 1) as]

theorem add_rank_pct_aux_map_clientes (total : ℚ) :
    ∀ (s : ℕ) (l : List AggRow),
      (add_rank_pct_aux total s l).map (fun p => p.clientes) =
        l.map (fun a => a.clientes)
  | _, [] => rfl
  | s, a :: as => by
    simp [add_rank_pct_aux, mkProfileRow, add_rank_pct_aux_map_clientes total (s + 1) as]

theorem profile_display_pctBase (p : ProfileRow) :
    (profile_display p).pctBase = p.pctBase := rfl

theorem profile_display_clientes (p : ProfileRow) :
    (profile_display p).clientes = p.clientes := rfl

theorem profile_display_rank (p : ProfileRow) :
    (profile_display p).rankQualidade = p.rankQualidade := rfl

theorem profile_display_score (p : ProfileRow) :
    (profile_display p).scoreComposto_medio = roundTo 2 p.scoreComposto_medio := rfl

/-- The counts per group partition the rows: summing `Clientes` over the
aggregated profile gives the total number of per-customer rows. -/
theorem sum_clientes_agg (rows : List AssignedRow) :
    ((cluster_profile_agg rows).map (fun a => a.clientes)).sum = rows.length := by
  unfold cluster_profile_agg
  rw [List.map_map]
  have h1 : (fun k => (agg_cluster rows k).clientes) =
      fun k => (rows.map (fun r => r.clusterId)).count k := by
    funext k
    simp only [agg_cluster, clusterGroup]
    rw [List.count_eq_countP, List.countP_map, List.countP_eq_length_filter]
    rfl
  have hperm : List.Perm (groupKeys rows) (rows.map (fun r => r.clusterId)).dedup :=
    List.perm_insertionSort _ _
  simp only [Function.comp_def]
  have hto : ((rows.map (fun r => r.clusterId)).dedup).toFinset =
      (rows.map (fun r => r.clusterId)).toFinset := by
    ext a
    simp
  rw [h1, (hperm.map _).sum_eq,
    ← List.sum_toFinset _ (List.nodup_dedup _), hto,
    List.sum_toFinset_count_eq_length, List.length_map]

/-- Sorting the profile permutes its rows, so the `Clientes` sum is
unchanged. -/
theorem sum_clientes_sorted (l : List AggRow) :
    ((sort_by_score l).map (fun a => a.clientes)).sum =
      (l.map (fun a => a.clientes)).sum :=
  ((List.perm_insertionSort scoreLe l).map _).sum_eq

theorem sort_by_score_length (l : List AggRow) :
    (sort_by_score l).length = l.length :=
  (List.perm_insertionSort scoreLe l).length_eq

theorem sort_by_score_sorted (l : List AggRow) :
    (sort_by_score l).Sorted scoreLe :=
  List.sorted_insertionSort scoreLe l

/-! ### Structural lemmas about `mk_assigned` and `cluster_rfm_joint` -/

theorem mk_assigned_length (rfm : List RfmRow) (cids : List ℤ)
    (Xs : List (ℚ × ℚ × ℚ)) :
    (mk_assigned rfm cids Xs).length =
      min rfm.length (min cids.length Xs.length) := by
  simp [mk_assigned]

theorem mk_assigned_getD_score (rfm : List RfmRow) (cids : List ℤ)
    (Xs : List (ℚ × ℚ × ℚ)) (i : ℕ)
    (hi : i < (mk_assigned rfm cids Xs).length) :
    ((mk_assigned rfm cids Xs).getD i default).scoreComposto =
      (Xs.getD i default).1 + (Xs.getD i default).2.1 + (Xs.getD i default).2.2 := by
  have hx : i < Xs.length := by
    rw [mk_assigned_length] at hi
    omega
  have hr : i < rfm.length := by
    rw [mk_assigned_length] at hi
    omega
  have hc : i < cids.length := by
    rw [mk_assigned_length] at hi
    omega
  rw [List.getD_eq_getElem _ _ hi, List.getD_eq_getElem _ _ hx]
  unfold mk_assigned
  rw [List.getElem_map, List.getElem_zip, List.getElem_zip]

theorem mk_assigned_map_cid (rfm : List RfmRow) (cids : List ℤ)
    (Xs : List (ℚ × ℚ × ℚ)) (hrc : rfm.length = cids.length)
    (hxc : Xs.length = cids.length) :
    (mk_assigned rfm cids Xs).map (fun r => r.clusterId) = cids := by
  apply List.ext_getElem
  · simp [mk_assigned_length, hrc, hxc]
  · intro i h1 h2
    unfold mk_assigned
    rw [List.getElem_map, List.getElem_map, List.getElem_zip, List.getElem_zip]

/-- When the sample count is at least the requested cluster count,
`cluster_rfm_joint` succeeds, its per-customer table is `mk_assigned`
restricted to the output columns, and its profile is the display-rounded
`cluster_profile`. -/
theorem cluster_rfm_joint_eq_ok (rfm : List RfmRow) (Xs : List (ℚ × ℚ × ℚ))
    (labels : List ℤ) (k : ℕ) (hfit : k ≤ Xs.length) :
    cluster_rfm_joint rfm Xs labels k =
      .ok ((mk_assigned rfm labels Xs).map (fun r =>
          { cliente := r.cliente
            recencia := r.recencia
            frequencia := r.frequencia
            receita := r.receita
            clusterId := r.clusterId
            rankQualidade := rank_of (cluster_profile (mk_assigned rfm labels Xs)) r.clusterId
            scoreComposto := r.scoreComposto : ClusteredRow }),
        (cluster_profile (mk_assigned rfm labels Xs)).map profile_display) := by
  unfold cluster_rfm_joint kmeans_fit_predict
  rw [if_neg (not_lt.mpr hfit)]

/-! ## Column-level dataflow (claim C4)

The numeric embedding above fixes the per-customer output columns
statically in the `ClusteredRow` structure.  To check the column contract
against the source's dataframe operations, the column dimension of the
dataflow of `cluster_rfm_joint` is modelled separately: each step below
mirrors one line of src/rfm.py that adds, drops or selects columns. -/

/-- Columns of the RFM table returned by `build_rfm_table` (line 43). -/
def rfm_table_cols : List String := ["Cliente", "Recencia", "Frequencia", "Receita"]

/-- `build_rfm_features` appends the derived feature columns (lines 56–59). -/
def build_rfm_features_cols (cols : List String) : List String :=
  cols ++ ["R_inv", "F_log", "M_log"]

/-- `df.drop(columns=toDrop, errors="ignore")` at the column level. -/
def drop_columns (cols toDrop : List String) : List String :=
  cols.filter (fun c => !(toDrop.contains c))

/-- `df[want]`: pandas raises `KeyError` when a requested column is absent,
otherwise the result has exactly the requested columns in order. -/
def select_columns (cols want : List String) : Except String (List String) :=
  if want.all (fun c => cols.contains c) then .ok want else .error "KeyError"

/-- Column-level dataflow of the per-customer table through
`cluster_rfm_joint`: features added (line 104), `ClusterId` (line 108),
`ScoreComposto` (line 111), `RankQualidade` merged in (line 136), feature
columns dropped (line 139), final column selection (lines 142–143). -/
def cluster_rfm_joint_cols : Except String (List String) :=
  select_columns
    (drop_columns
      (build_rfm_features_cols rfm_table_cols ++
        ["ClusterId"] ++ ["ScoreComposto"] ++ ["RankQualidade"])
      ["R_inv", "F_log", "M_log"])
    ["Cliente", "Recencia", "Frequencia", "Receita", "ClusterId",
      "RankQualidade", "ScoreComposto"]

/-- C4: the per-customer output table has exactly the columns
{customer id, Recency, Frequency, Monetary, ClusterId, QualityRank,
CompositeScore}; the intermediate derived feature columns (`R_inv`,
`F_log`, `M_log`) are absent. -/
theorem output_column_contract :
    cluster_rfm_joint_cols =
      .ok ["Cliente", "Recencia", "Frequencia", "Receita", "ClusterId",
        "RankQualidade", "ScoreComposto"] ∧
    "R_inv" ∉ (["Cliente", "Recencia", "Frequencia", "Receita", "ClusterId",
        "RankQualidade", "ScoreComposto"] : List String) ∧
    "F_log" ∉ (["Cliente", "Recencia", "Frequencia", "Receita", "ClusterId",
        "RankQualidade", "ScoreComposto"] : List String) ∧
    "M_log" ∉ (["Cliente", "Recencia", "Frequencia", "Receita", "ClusterId",
        "RankQualidade", "ScoreComposto"] : List String) := by
  refine ⟨?_, by decide, by decide, by decide⟩
  rfl

/-- C5: every output row's `ScoreComposto` is the sum of that customer's
three standardized feature values (`Xs.sum(axis=1)`), and it does not
depend on the label vector the clusterer produced. -/
theorem composite_score_is_sum_of_standardized (rfm : List RfmRow)
    (Xs : List (ℚ × ℚ × ℚ)) (labels : List ℤ) (k : ℕ) (i : ℕ)
    (hfit : k ≤ Xs.length) (hlr : Xs.length = rfm.length)
    (hll : labels.length = rfm.length) (hi : i < rfm.length) :
    ∃ out prof, cluster_rfm_joint rfm Xs labels k = .ok (out, prof) ∧
      (out.getD i default).scoreComposto =
        (Xs.getD i default).1 + (Xs.getD i default).2.1 + (Xs.getD i default).2.2 ∧
      (∀ labels' out' prof',
        cluster_rfm_joint rfm Xs labels' k = .ok (out', prof') →
        i < out'.length →
        (out'.getD i default).scoreComposto =
          (out.getD i default).scoreComposto) := by
  have hassigned : i < (mk_assigned rfm labels Xs).length := by
    rw [mk_assigned_length]
    omega
  refine ⟨_, _, cluster_rfm_joint_eq_ok rfm Xs labels k hfit, ?_, ?_⟩
  · rw [List.getD_eq_getElem _ _ (by simpa using hassigned), List.getElem_map]
    show ((mk_assigned rfm labels Xs)[i]).scoreComposto = _
    rw [← List.getD_eq_getElem _ default hassigned]
    exact mk_assigned_getD_score rfm labels Xs i hassigned
  · intro labels' out' prof' hr' hi'
    unfold cluster_rfm_joint kmeans_fit_predict at hr'
    rw [if_neg (not_lt.mpr hfit)] at hr'
    simp only [Except.ok.injEq, Prod.mk.injEq] at hr'
    obtain ⟨hout', _⟩ := hr'
    subst hout'
    have hi'' : i < (mk_assigned rfm labels' Xs).length := by
      simpa using hi'
    rw [List.getD_eq_getElem _ _ (by simpa using hi''), List.getElem_map,
      List.getD_eq_getElem _ _ (by simpa using hassigned), List.getElem_map]
    show ((mk_assigned rfm labels' Xs)[i]).scoreComposto =
      ((mk_assigned rfm labels Xs)[i]).scoreComposto
    rw [← List.getD_eq_getElem _ default hi'',
      ← List.getD_eq_getElem _ default hassigned,
      mk_assigned_getD_score rfm labels' Xs i hi'',
      mk_assigned_getD_score rfm labels Xs i hassigned]

/-- Witness for C5 at two customers, `Xs = [(1,2,3), (2,0,0)]`, labels
`[0, 1]`, `k = 2`, row `i = 0`. -/
theorem composite_score_is_sum_of_standardized_witness :
    (2 ≤ ([(1, 2, 3), (2, 0, 0)] : List (ℚ × ℚ × ℚ)).length) ∧
    (([(1, 2, 3), (2, 0, 0)] : List (ℚ × ℚ × ℚ)).length =
      ([⟨1, 1, 10, 1000⟩, ⟨2, 90, 1, 40⟩] : List RfmRow).length) ∧
    (([0, 1] : List ℤ).length = ([⟨1, 1, 10, 1000⟩, ⟨2, 90, 1, 40⟩] : List RfmRow).length) ∧
    (0 < ([⟨1, 1, 10, 1000⟩, ⟨2, 90, 1, 40⟩] : List RfmRow).length) ∧
    (∃ out prof,
      cluster_rfm_joint [⟨1, 1, 10, 1000⟩, ⟨2, 90, 1, 40⟩]
        [(1, 2, 3), (2, 0, 0)] [0, 1] 2 = .ok (out, prof) ∧
      (out.getD 0 default).scoreComposto =
        (([(1, 2, 3), (2, 0, 0)] : List (ℚ × ℚ × ℚ)).getD 0 default).1 +
          (([(1, 2, 3), (2, 0, 0)] : List (ℚ × ℚ × ℚ)).getD 0 default).2.1 +
          (([(1, 2, 3), (2, 0, 0)] : List (ℚ × ℚ × ℚ)).getD 0 default).2.2 ∧
      (∀ labels' out' prof',
        cluster_rfm_joint [⟨1, 1, 10, 1000⟩, ⟨2, 90, 1, 40⟩]
          [(1, 2, 3), (2, 0, 0)] labels' 2 = .ok (out', prof') →
        0 < out'.length →
        (out'.getD 0 default).scoreComposto =
          (out.getD 0 default).scoreComposto)) :=
  ⟨by simp, by simp, by simp, by simp,
    composite_score_is_sum_of_standardized
      [⟨1, 1, 10, 1000⟩, ⟨2, 90, 1, 40⟩] [(1, 2, 3), (2, 0, 0)] [0, 1] 2 0
      (by simp) (by simp) (by simp) (by simp)⟩

/-- C7: when the requested cluster count exceeds the number of distinct
customers of the RFM table (one row per customer), `cluster_rfm_joint`
fails with the constraint-violation error of `KMeans.fit` and never
returns a result with fewer clusters. -/
theorem k_exceeding_population_fails (rfm : List RfmRow)
    (Xs : List (ℚ × ℚ × ℚ)) (labels : List ℤ) (k : ℕ)
    (hnodup : (rfm.map (fun r => r.cliente)).Nodup)
    (hlr : Xs.length = rfm.length)
    (hk : (rfm.map (fun r => r.cliente)).dedup.length < k) :
    cluster_rfm_joint rfm Xs labels k =
      .error "n_samples should be >= n_clusters" := by
  have hd : (rfm.map (fun r => r.cliente)).dedup = rfm.map (fun r => r.cliente) :=
    List.dedup_eq_self.mpr hnodup
  have hlen : rfm.length < k := by
    rw [hd, List.length_map] at hk
    exact hk
  unfold cluster_rfm_joint kmeans_fit_predict
  rw [if_pos (by rw [hlr]; exact hlen)]

/-- Witness for C7, mirroring the spec's scenario: 6 distinct customers,
`k = 8`. -/
theorem k_exceeding_population_fails_witness :
    (([⟨1, 1, 10, 1000⟩, ⟨2, 5, 8, 800⟩, ⟨3, 10, 6, 600⟩, ⟨4, 50, 2, 100⟩,
        ⟨5, 60, 1, 50⟩, ⟨6, 90, 1, 40⟩] : List RfmRow).map (fun r => r.cliente)).Nodup ∧
    ((List.replicate 6 ((0 : ℚ), (0 : ℚ), (0 : ℚ))).length =
      ([⟨1, 1, 10, 1000⟩, ⟨2, 5, 8, 800⟩, ⟨3, 10, 6, 600⟩, ⟨4, 50, 2, 100⟩,
        ⟨5, 60, 1, 50⟩, ⟨6, 90, 1, 40⟩] : List RfmRow).length) ∧
    ((([⟨1, 1, 10, 1000⟩, ⟨2, 5, 8, 800⟩, ⟨3, 10, 6, 600⟩, ⟨4, 50, 2, 100⟩,
        ⟨5, 60, 1, 50⟩, ⟨6, 90, 1, 40⟩] : List RfmRow).map
        (fun r => r.cliente)).dedup.length < 8) ∧
    cluster_rfm_joint
      [⟨1, 1, 10, 1000⟩, ⟨2, 5, 8, 800⟩, ⟨3, 10, 6, 600⟩, ⟨4, 50, 2, 100⟩,
        ⟨5, 60, 1, 50⟩, ⟨6, 90, 1, 40⟩]
      (List.replicate 6 ((0 : ℚ), (0 : ℚ), (0 : ℚ))) [] 8 =
      .error "n_samples should be >= n_clusters" :=
  ⟨by decide, by decide, by decide,
    k_exceeding_population_fails
      [⟨1, 1, 10, 1000⟩, ⟨2, 5, 8, 800⟩, ⟨3, 10, 6, 600⟩, ⟨4, 50, 2, 100⟩,
        ⟨5, 60, 1, 50⟩, ⟨6, 90, 1, 40⟩]
      (List.replicate 6 ((0 : ℚ), (0 : ℚ), (0 : ℚ))) [] 8
      (by decide) (by decide) (by decide)⟩

/-- C3 amended: in every profile returned by the Joint Clusterer, row `i`
carries `QualityRank = i`, and the mean composite scores are sorted
ascending along the ranks (non-decreasing; so rank `0` attains the minimum
mean score and rank `k-1` the maximum).  Strictness fails only for exact
ties of the mean score, see the counterexample. -/
theorem quality_rank_sorted_by_mean_score (rfm : List RfmRow)
    (Xs : List (ℚ × ℚ × ℚ)) (labels : List ℤ) (k : ℕ)
    (hfit : k ≤ Xs.length) :
    ∃ out prof, cluster_rfm_joint rfm Xs labels k = .ok (out, prof) ∧
      (∀ i, i < prof.length → (prof.getD i default).rankQualidade = i) ∧
      (∀ i j, i ≤ j → j < prof.length →
        (prof.getD i default).scoreComposto_medio ≤
          (prof.getD j default).scoreComposto_medio) := by
  refine ⟨_, _, cluster_rfm_joint_eq_ok rfm Xs labels k hfit, ?_, ?_⟩
  all_goals
    have hauxlen : ∀ (l : List AggRow) (t : ℚ),
        ((add_rank_pct_aux t 0 l).map profile_display).length = l.length := by
      intro l t
      rw [List.length_map, add_rank_pct_aux_length]
  · intro i hi
    unfold cluster_profile add_rank_pct at hi ⊢
    have hi' : i < (sort_by_score (cluster_profile_agg (mk_assigned rfm labels Xs))).length := by
      rwa [hauxlen] at hi
    rw [List.getD_eq_getElem _ _ hi, List.getElem_map, profile_display_rank,
      ← List.getD_eq_getElem _ default (by rwa [add_rank_pct_aux_length]),
      add_rank_pct_aux_getD _ 0 i _ hi']
    simp [mkProfileRow]
  · intro i j hij hj
    unfold cluster_profile add_rank_pct at hj ⊢
    have hj' : j < (sort_by_score (cluster_profile_agg (mk_assigned rfm labels Xs))).length := by
      rwa [hauxlen] at hj
    have hi' : i < (sort_by_score (cluster_profile_agg (mk_assigned rfm labels Xs))).length :=
      lt_of_le_of_lt hij hj'
    have hi : i < ((add_rank_pct_aux
        (((((sort_by_score (cluster_profile_agg (mk_assigned rfm labels Xs))).map
          (fun a => a.clientes)).sum : ℕ)) : ℚ) 0
        (sort_by_score (cluster_profile_agg (mk_assigned rfm labels Xs)))).map
          profile_display).length := by
      rwa [hauxlen]
    rw [List.getD_eq_getElem _ _ hi, List.getElem_map, profile_display_score,
      List.getD_eq_getElem _ _ hj, List.getElem_map, profile_display_score,
      ← List.getD_eq_getElem _ default (by rwa [add_rank_pct_aux_length]),
      ← List.getD_eq_getElem _ default (by rwa [add_rank_pct_aux_length]),
      add_rank_pct_aux_getD _ 0 i _ hi', add_rank_pct_aux_getD _ 0 j _ hj']
    show roundTo 2 ((sort_by_score _).getD i default).scoreComposto_medio ≤
      roundTo 2 ((sort_by_score _).getD j default).scoreComposto_medio
    apply roundTo_mono
    rcases eq_or_lt_of_le hij with heq | hlt
    · subst heq
      exact le_refl _
    · have hs := (sort_by_score_sorted
        (cluster_profile_agg (mk_assigned rfm labels Xs))).rel_get_of_lt
          (show (⟨i, hi'⟩ : Fin _) < (⟨j, hj'⟩ : Fin _) from by simpa using hlt)
      rw [List.getD_eq_getElem _ default hi', List.getD_eq_getElem _ default hj']
      exact hs

/-- Witness for the amended C3 at two customers with distinct composite
scores, labels `[1, 0]`, `k = 2`. -/
theorem quality_rank_sorted_by_mean_score_witness :
    (2 ≤ ([((0 : ℚ), (0 : ℚ), (1 : ℚ)), ((1 : ℚ), (0 : ℚ), (0 : ℚ))] : List (ℚ × ℚ × ℚ)).length) ∧
    (∃ out prof,
      cluster_rfm_joint [⟨1, 1, 10, 1000⟩, ⟨2, 90, 1, 40⟩]
        [((0 : ℚ), (0 : ℚ), (1 : ℚ)), ((1 : ℚ), (0 : ℚ), (0 : ℚ))] [1, 0] 2 = .ok (out, prof) ∧
      (∀ i, i < prof.length → (prof.getD i default).rankQualidade = i) ∧
      (∀ i j, i ≤ j → j < prof.length →
        (prof.getD i default).scoreComposto_medio ≤
          (prof.getD j default).scoreComposto_medio)) :=
  ⟨by simp,
    quality_rank_sorted_by_mean_score [⟨1, 1, 10, 1000⟩, ⟨2, 90, 1, 40⟩]
      [((0 : ℚ), (0 : ℚ), (1 : ℚ)), ((1 : ℚ), (0 : ℚ), (0 : ℚ))] [1, 0] 2 (by simp)⟩

/-- Input for the C3 counterexample: two customers with identical RFM
values but distinct identifiers.  `StandardScaler` maps two identical
feature rows to two zero rows, so `Xs = [(0,0,0), (0,0,0)]` is the actual
standardized matrix for this table, and KMeans with `k = 2` must split the
two points into two singleton clusters. -/
def tieRfm : List RfmRow := [⟨1, 5, 2, 30⟩, ⟨2, 5, 2, 30⟩]

def tieXs : List (ℚ × ℚ × ℚ) := [(0, 0, 0), (0, 0, 0)]

/-- The profile returned by the Joint Clusterer on `tieRfm`. -/
def tieProf : List ProfileRow :=
  ((cluster_rfm_joint tieRfm tieXs [0, 1] 2).toOption.getD ([], [])).2

/-- Counterexample to C3 as stated: on `tieRfm` the two clusters have equal
mean composite score (both `0`), yet carry the distinct ranks `0` and `1` —
so `QualityRank` is *not* strictly increasing with mean `CompositeScore`. -/
theorem quality_rank_not_strictly_increasing :
    (cluster_rfm_joint tieRfm tieXs [0, 1] 2).isOk = true ∧
    tieProf.length = 2 ∧
    (tieProf.getD 0 default).rankQualidade = 0 ∧
    (tieProf.getD 1 default).rankQualidade = 1 ∧
    (tieProf.getD 0 default).scoreComposto_medio =
      (tieProf.getD 1 default).scoreComposto_medio ∧
    ¬ ((tieProf.getD 0 default).scoreComposto_medio <
        (tieProf.getD 1 default).scoreComposto_medio) := by
  norm_num [tieProf, tieRfm, tieXs, cluster_rfm_joint, kmeans_fit_predict, mk_assigned,
    cluster_profile, add_rank_pct, add_rank_pct_aux, sort_by_score, cluster_profile_agg,
    groupKeys, agg_cluster, clusterGroup, scoreLe, qmean, qmedian, mkProfileRow,
    profile_display, rank_of, roundTo, roundHalfEven, List.insertionSort, List.orderedInsert,
    List.dedup_cons_of_mem, List.dedup_cons_of_not_mem, Int.fract, Except.toOption,
    Except.isOk, Except.toBool, Option.getD_some, List.getElem?_cons_zero, List.getElem?_cons_succ]

set_option maxHeartbeats 1600000 in
/-- C6: every profile row's `PctBase` is its customer count divided by the
total customer count, rounded half-to-even to 4 decimal places; over a
profile with at most 10 clusters the `PctBase` values sum to `1` within
`±0.001`. -/
theorem pct_base_definition_and_coverage (rfm : List RfmRow)
    (Xs : List (ℚ × ℚ × ℚ)) (labels : List ℤ) (k : ℕ)
    (hfit : k ≤ Xs.length) (hlr : Xs.length = rfm.length)
    (hll : labels.length = rfm.length) (hne : rfm ≠ [])
    (h10 : labels.dedup.length ≤ 10) :
    ∃ out prof, cluster_rfm_joint rfm Xs labels k = .ok (out, prof) ∧
      (∀ i, i < prof.length →
        (prof.getD i default).pctBase =
          roundTo 4 (((prof.getD i default).clientes : ℚ) /
            (((prof.map (fun p => p.clientes)).sum : ℕ) : ℚ))) ∧
      |((prof.map (fun p => p.pctBase)).sum) - 1| ≤ 1 / 1000 := by
  refine ⟨_, _, cluster_rfm_joint_eq_ok rfm Xs labels k hfit, ?_, ?_⟩
  all_goals
    have hmapcli : ∀ (l : List AggRow) (t : ℚ),
        ((add_rank_pct_aux t 0 l).map profile_display).map (fun p => p.clientes) =
          l.map (fun a => a.clientes) := by
      intro l t
      rw [List.map_map]
      have : (fun p => p.clientes) ∘ profile_display = fun p : ProfileRow => p.clientes := by
        funext p
        simp [profile_display_clientes, Function.comp]
      rw [this, add_rank_pct_aux_map_clientes]
  all_goals
    have hmappct : ∀ (l : List AggRow) (t : ℚ),
        ((add_rank_pct_aux t 0 l).map profile_display).map (fun p => p.pctBase) =
          l.map (fun a => roundTo 4 ((a.clientes : ℚ) / t)) := by
      intro l t
      rw [List.map_map]
      have : (fun p => p.pctBase) ∘ profile_display = fun p : ProfileRow => p.pctBase := by
        funext p
        simp [profile_display_pctBase, Function.comp]
      rw [this, add_rank_pct_aux_map_pct]
  all_goals
    have hsumcli : ((sort_by_score (cluster_profile_agg (mk_assigned rfm labels Xs))).map
        (fun a => a.clientes)).sum = rfm.length := by
      rw [sum_clientes_sorted, sum_clientes_agg, mk_assigned_length]
      omega
  · -- PctBase definition per row
    intro i hi
    unfold cluster_profile add_rank_pct at hi ⊢
    have hi' : i < (sort_by_score (cluster_profile_agg (mk_assigned rfm labels Xs))).length := by
      rw [List.length_map, add_rank_pct_aux_length] at hi
      exact hi
    rw [hmapcli]
    rw [List.getD_eq_getElem _ _ hi, List.getElem_map, profile_display_pctBase,
      profile_display_clientes,
      ← List.getD_eq_getElem _ default (by rwa [add_rank_pct_aux_length]),
      add_rank_pct_aux_getD _ 0 i _ hi']
    rfl
  · -- coverage: the PctBase values sum to 1 within rounding tolerance
    unfold cluster_profile add_rank_pct
    set S := sort_by_score (cluster_profile_agg (mk_assigned rfm labels Xs)) with hS
    rw [hmappct, hsumcli]
    have hNpos : 0 < rfm.length := List.length_pos.mpr hne
    have hNq : ((rfm.length : ℕ) : ℚ) ≠ 0 := by
      exact_mod_cast hNpos.ne'
    have hg : (S.map (fun a => (a.clientes : ℚ) / ((rfm.length : ℕ) : ℚ))).sum = 1 := by
      rw [list_sum_map_div]
      have hnum : (S.map (fun a => ((a.clientes : ℕ) : ℚ))).sum = ((rfm.length : ℕ) : ℚ) := by
        rw [← hsumcli, Nat.cast_list_sum, List.map_map]
        rfl
      rw [hnum]
      exact div_self hNq
    have hlen10 : S.length ≤ 10 := by
      rw [hS, sort_by_score_length]
      unfold cluster_profile_agg
      rw [List.length_map]
      unfold groupKeys
      rw [(List.perm_insertionSort _ _).length_eq,
        mk_assigned_map_cid rfm labels Xs (by omega) (by omega)]
      exact h10
    have hbound : ∀ a ∈ S,
        |roundTo 4 ((a.clientes : ℚ) / ((rfm.length : ℕ) : ℚ)) -
          (a.clientes : ℚ) / ((rfm.length : ℕ) : ℚ)| ≤ 1 / (2 * 10 ^ 4) :=
      fun a _ => abs_roundTo_sub 4 _
    have habs := list_abs_sum_le _ _ S hbound
    rw [list_sum_map_sub, hg] at habs
    have hlenq : (S.length : ℚ) ≤ 10 := by
      exact_mod_cast hlen10
    have hfin : (S.length : ℚ) * (1 / (2 * 10 ^ 4)) ≤ 1 / 1000 := by
      nlinarith
    exact le_trans habs hfin

/-- Witness for C6 at two customers, two singleton clusters: each
`PctBase` is `round4(1/2) = 0.5` and the sum is exactly `1`. -/
theorem pct_base_definition_and_coverage_witness :
    (2 ≤ ([((0 : ℚ), (0 : ℚ), (1 : ℚ)), ((2 : ℚ), (0 : ℚ), (0 : ℚ))] : List (ℚ × ℚ × ℚ)).length) ∧
    (([((0 : ℚ), (0 : ℚ), (1 : ℚ)), ((2 : ℚ), (0 : ℚ), (0 : ℚ))] : List (ℚ × ℚ × ℚ)).length =
      ([⟨7, 2, 4, 50⟩, ⟨8, 30, 1, 5⟩] : List RfmRow).length) ∧
    (([1, 0] : List ℤ).length = ([⟨7, 2, 4, 50⟩, ⟨8, 30, 1, 5⟩] : List RfmRow).length) ∧
    (([⟨7, 2, 4, 50⟩, ⟨8, 30, 1, 5⟩] : List RfmRow) ≠ []) ∧
    (([1, 0] : List ℤ).dedup.length ≤ 10) ∧
    (∃ out prof,
      cluster_rfm_joint [⟨7, 2, 4, 50⟩, ⟨8, 30, 1, 5⟩]
        [((0 : ℚ), (0 : ℚ), (1 : ℚ)), ((2 : ℚ), (0 : ℚ), (0 : ℚ))] [1, 0] 2 = .ok (out, prof) ∧
      (∀ i, i < prof.length →
        (prof.getD i default).pctBase =
          roundTo 4 (((prof.getD i default).clientes : ℚ) /
            (((prof.map (fun p => p.clientes)).sum : ℕ) : ℚ))) ∧
      |((prof.map (fun p => p.pctBase)).sum) - 1| ≤ 1 / 1000) :=
  ⟨by simp, by simp, by simp, by simp, by decide,
    pct_base_definition_and_coverage [⟨7, 2, 4, 50⟩, ⟨8, 30, 1, 5⟩]
      [((0 : ℚ), (0 : ℚ), (1 : ℚ)), ((2 : ℚ), (0 : ℚ), (0 : ℚ))] [1, 0] 2
      (by simp) (by simp) (by simp) (by simp) (by decide)⟩

end RFMSeg
